import Mathlib

/-!
# Smart Clinic Management System: client-side utilities (`static/js/main.js`)

A shallow embedding of the utility classes of `main.js` (`AuthManager`, `ApiClient`,
`FormValidator`, `UIUtils.debounce`, `DataUtils` and the page bootstrap handler) together with
the theorems that settle the stated properties of the program.

JavaScript values are modelled in two layers:

* `JSData` is plain data: what object literals of data and `JSON.parse` produce
  (`undefined`, `null`, booleans, integral numbers, strings and records of those);
* `JSVal` is what an expression may evaluate to: plain data, or a built-in object or function
  of the host (such as the members that every plain object inherits from `Object.prototype`).

What the language fixes is modelled concretely: truthiness, reading a member of `undefined` or
`null`, the own properties and the prototype chain of plain objects, and the throwing accessors
`caller` and `arguments` that built-in functions inherit.  The rest of the built-in object graph
(the members of primitive values and of built-in objects) is a parameter, `Host`.

Code that can throw returns `Except JSError _`.  Numbers are integers (no `NaN`, no fractions),
strings are sequences of Unicode scalar values, arrays of items are Lean lists.
-/

set_option autoImplicit false

namespace SmartClinic

/-! ## JavaScript values -/

/-- Exceptions that the modelled code can raise. -/
inductive JSError where
  /-- A `TypeError` raised by the language itself. -/
  | typeError (msg : String)
  /-- A `SyntaxError`, raised by `JSON.parse` and by `response.json()`. -/
  | syntaxError (msg : String)
  /-- A plain `new Error(msg)`. -/
  | error (msg : String)
  /-- A rejection of `fetch` (network level failure). -/
  | network (msg : String)
  deriving DecidableEq, Repr

/-- Plain data: literals and records (own enumerable data properties, in insertion order). -/
inductive JSData where
  | undefined
  | null
  | bool (b : Bool)
  | num (n : Int)
  | str (s : String)
  | obj (props : List (String × JSData))
  deriving Repr

/-- A value an expression evaluates to: plain data, or a built-in object or function of the host,
identified by a name (for the members inherited from `Object.prototype`, the property name). -/
inductive JSVal where
  | data (d : JSData)
  | native (name : String)
  deriving Repr

/-- Property names that every plain object inherits from `Object.prototype`. -/
def objectPrototypeKeys : List String :=
  ["constructor", "toString", "toLocaleString", "valueOf", "hasOwnProperty", "isPrototypeOf",
   "propertyIsEnumerable", "__proto__", "__defineGetter__", "__defineSetter__",
   "__lookupGetter__", "__lookupSetter__"]

/-- Own property lookup in a record. -/
def lookupOwn (key : String) : List (String × JSData) → Option JSData
  | [] => none
  | (k, v) :: rest => if k = key then some v else lookupOwn key rest

/-- Lookup of `key` along the prototype chain of a plain object: own properties first, then
`Object.prototype`; `undefined` when the chain has no such property. -/
def lookupChain (key : String) (props : List (String × JSData)) : JSVal :=
  match lookupOwn key props with
  | some v => .data v
  | none => if key ∈ objectPrototypeKeys then .native key else .data .undefined

/-- JavaScript truthiness (`!!v`). -/
def truthy : JSVal → Bool
  | .data .undefined => false
  | .data .null => false
  | .data (.bool b) => b
  | .data (.num n) => n != 0
  | .data (.str s) => s != ""
  | .data (.obj _) => true
  | .native _ => true

/-- The values `undefined` and `null`. -/
def isNullish : JSVal → Bool
  | .data .undefined => true
  | .data .null => true
  | _ => false

/-- The part of the built-in object graph that is taken as given: what a member read yields on
a primitive value (the `length` and the characters of a string, the methods of the wrapper
prototypes), which never throws, and what it yields on a built-in object or function, which
may throw. -/
structure Host where
  /-- The value of `d[key]` for a boolean, a number or a string `d`. -/
  primitiveMember : JSData → String → JSVal
  /-- The outcome of `b[key]` for the built-in named `b`; the names in `objectPrototypeKeys`
  name the members of `Object.prototype`. -/
  builtinMember : String → String → Except JSError JSVal

/-- The built-ins inherited from `Object.prototype` that are functions: all of them but the
value of the accessor `__proto__`, which is the prototype object. -/
def isInheritedFunction (name : String) : Bool :=
  decide (name ∈ objectPrototypeKeys) && name != "__proto__"

/-- Member access `v[key]`.  Reading a member of `undefined` or `null` throws a `TypeError`.
Records are searched along their prototype chain.  A built-in function has no own `caller` or
`arguments` and inherits the accessors of `Function.prototype`, which throw a `TypeError`.
Every other read on a built-in or on a primitive is answered by the host. -/
def getProp (host : Host) (v : JSVal) (key : String) : Except JSError JSVal :=
  match v with
  | .data .undefined => .error (.typeError "Cannot read properties of undefined")
  | .data .null => .error (.typeError "Cannot read properties of null")
  | .data (.obj props) => .ok (lookupChain key props)
  | .data d => .ok (host.primitiveMember d key)
  | .native name =>
    if isInheritedFunction name && (key == "caller" || key == "arguments") then
      .error (.typeError "'caller', 'callee', and 'arguments' properties may not be accessed")
    else host.builtinMember name key

/-- The member names that the code reads with a fixed name: `user.id` and `user.role`.  No
built-in prototype has a member of either name. -/
inductive UserField where
  | id
  | role
  deriving DecidableEq, Repr

/-- The property name of a field. -/
def UserField.key : UserField → String
  | .id => "id"
  | .role => "role"

/-- Member access `user.id` or `user.role` on plain data: a `TypeError` on `undefined` and
`null`, the own property of a record, and `undefined` otherwise (a missing property, or a
primitive value, whose prototypes have no such member). -/
def getField (user : JSData) (field : UserField) : Except JSError JSVal :=
  match user with
  | .undefined => .error (.typeError "Cannot read properties of undefined")
  | .null => .error (.typeError "Cannot read properties of null")
  | .obj props =>
    match lookupOwn field.key props with
    | some v => .ok (.data v)
    | none => .ok (.data .undefined)
  | _ => .ok (.data .undefined)

/-- The method call `v.toString()`.  It throws on `undefined` and `null`, and on a record whose
own data property `toString` shadows the inherited method (a data value is not callable). -/
def toStr : JSVal → Except JSError String
  | .data .undefined => .error (.typeError "Cannot read properties of undefined")
  | .data .null => .error (.typeError "Cannot read properties of null")
  | .data (.bool b) => .ok (if b then "true" else "false")
  | .data (.num n) => .ok (toString n)
  | .data (.str s) => .ok s
  | .data (.obj props) =>
    match lookupOwn "toString" props with
    | none => .ok "[object Object]"
    | some _ => .error (.typeError "toString is not a function")
  | .native name =>
    if name = "__proto__" then .ok "[object Object]"
    else .ok ("function " ++ name ++ "() { [native code] }")

/-- Conversion of a value to a property key, as in `groups[value]`. -/
def toPropertyKey : JSVal → Except JSError String
  | .data .undefined => .ok "undefined"
  | .data .null => .ok "null"
  | .data (.obj props) =>
    match lookupOwn "toString" props with
    | none => .ok "[object Object]"
    | some _ => .error (.typeError "Cannot convert object to primitive value")
  | v => toStr v

/-- The method `String.prototype.toLowerCase` (letters of the ASCII range). -/
def toLowerCase (s : String) : String :=
  String.mk (s.data.map Char.toLower)

/-- The method `String.prototype.includes`: `term` occurs in `s` as a contiguous substring. -/
def includes (s term : String) : Bool :=
  decide (term.data <:+: s.data)

/-- The method `String.prototype.split` with a one-character separator: the worker, with the
characters of the current piece accumulated in reverse. -/
def splitAux (sep : Char) : List Char → List Char → List String
  | acc, [] => [String.mk acc.reverse]
  | acc, c :: cs =>
    if c = sep then String.mk acc.reverse :: splitAux sep [] cs else splitAux sep (c :: acc) cs

/-- The call `s.split(sep)` for a one-character separator. -/
def split (s : String) (sep : Char) : List String :=
  splitAux sep [] s.data

/-- White space and line terminators, the characters removed by `String.prototype.trim`. -/
def isTrimChar (c : Char) : Bool :=
  c.toNat ∈ [0x09, 0x0A, 0x0B, 0x0C, 0x0D, 0x20, 0xA0, 0x1680, 0x2028, 0x2029, 0x202F, 0x205F,
    0x3000, 0xFEFF] || (0x2000 ≤ c.toNat && c.toNat ≤ 0x200A)

/-- The method `String.prototype.trim`. -/
def trim (s : String) : String :=
  String.mk ((s.data.dropWhile isTrimChar).reverse.dropWhile isTrimChar).reverse

/-! ## `DataUtils` -/

/-- The reducer of `getNestedValue`: `(current, key) => current && current[key]`. -/
def nestedStep (host : Host) (current : JSVal) (key : String) : Except JSError JSVal :=
  if truthy current then getProp host current key else .ok current

/-- `DataUtils.getNestedValue(obj, path)`: `path.split('.').reduce(nestedStep, obj)`. -/
def getNestedValue (host : Host) (obj : JSVal) (path : String) : Except JSError JSVal :=
  (split path '.').foldlM (nestedStep host) obj

/-- `Array.prototype.some` with a callback that may throw; it stops at the first truthy result. -/
def someM {α : Type} (f : α → Except JSError Bool) : List α → Except JSError Bool
  | [] => .ok false
  | x :: xs => do
    if (← f x) then return true else someM f xs

/-- `Array.prototype.filter` with a callback that may throw. -/
def filterM {α : Type} (f : α → Except JSError Bool) : List α → Except JSError (List α)
  | [] => .ok []
  | x :: xs => do
    let keep ← f x
    let rest ← filterM f xs
    return if keep then x :: rest else rest

/-- The callback of `searchFields.some` in `filterArray`, reduced to the truthiness of
`value && value.toString().toLowerCase().includes(term)`. -/
def fieldMatches (host : Host) (item : JSData) (term : String) (field : String) :
    Except JSError Bool := do
  let value ← getNestedValue host (.data item) field
  if truthy value then
    let s ← toStr value
    return includes (toLowerCase s) term
  else
    return false

/-- `DataUtils.filterArray(array, searchTerm, searchFields)`. -/
def filterArray (host : Host) (array : List JSData) (searchTerm : String)
    (searchFields : List String) : Except JSError (List JSData) :=
  if searchTerm = "" then .ok array
  else
    let term := toLowerCase searchTerm
    filterM (fun item => someM (fieldMatches host item term) searchFields) array

/-- The accumulator of `groupBy`: the own properties of `groups`, each holding an array. -/
abbrev Groups := List (String × List JSData)

/-- Own property lookup in the accumulator. -/
def lookupGroup (key : String) : Groups → Option (List JSData)
  | [] => none
  | (k, arr) :: rest => if k = key then some arr else lookupGroup key rest

/-- The effect of `arr.push(item)` on the array stored under the own property `key`. -/
def pushGroup (key : String) (item : JSData) : Groups → Groups
  | [] => []
  | (k, arr) :: rest =>
    if k = key then (k, arr ++ [item]) :: rest else (k, arr) :: pushGroup key item rest

/-- One step of the reducer of `groupBy`:
`(groups[value] = groups[value] || []).push(item)`.  `groups` starts as the literal `{}`, so
`groups[value]` is looked up along the prototype chain: an own property holds an array, a
member inherited from `Object.prototype` is truthy and has no `push`, which makes the call
throw a `TypeError`. -/
def groupStep (host : Host) (key : String) (groups : Groups) (item : JSData) :
    Except JSError Groups := do
  let value ← getNestedValue host (.data item) key
  let k ← toPropertyKey value
  match lookupGroup k groups with
  | some _ => return pushGroup k item groups
  | none =>
    if k ∈ objectPrototypeKeys then
      throw (.typeError "(intermediate value).push is not a function")
    else
      return groups ++ [(k, [item])]

/-- `DataUtils.groupBy(array, key)`: `array.reduce(step, {})`. -/
def groupBy (host : Host) (array : List JSData) (key : String) : Except JSError Groups :=
  array.foldlM (groupStep host key) []

/-! ## `FormValidator` -/

/-- `FormValidator.validateRequired(value)`:
`value && value.toString().trim().length > 0`; the result is the JavaScript value of that
expression. -/
def validateRequired (value : JSData) : Except JSError JSVal :=
  if truthy (.data value) then do
    let s ← toStr (.data value)
    return .data (.bool (decide ((trim s).length > 0)))
  else
    .ok (.data value)

/-! ## Configuration and browser storage -/

/-- The constant `AUTH_TOKEN_KEY`. -/
def AUTH_TOKEN_KEY : String := "authToken"

/-- The constant `USER_DATA_KEY`. -/
def USER_DATA_KEY : String := "user"

/-- A string kept in `localStorage`, classified by what the host function `JSON.parse` makes of
it: either a well-formed JSON text, given by the value it denotes, or a text that `JSON.parse`
rejects.  The stored text `null` is `json .null`, the text `{}` is `json (.obj [])`, a bearer
token such as `abc` is `malformed "abc"`. -/
inductive StoredText where
  | json (value : JSData)
  | malformed (text : String)
  deriving Repr

/-- Truthiness of a string: every string but the empty one (which is not a JSON text). -/
def StoredText.truthy : StoredText → Bool
  | .json _ => true
  | .malformed text => text != ""

/-- The host function `JSON.parse`. -/
def jsonParse : StoredText → Except JSError JSData
  | .json value => .ok value
  | .malformed _ => .error (.syntaxError "Unexpected token in JSON")

mutual
/-- What the text written by `JSON.stringify` denotes: the value itself, without the properties
whose value is `undefined`. -/
def jsonValue : JSData → JSData
  | .obj props => .obj (jsonProps props)
  | d => d
/-- The properties that `JSON.stringify` writes. -/
def jsonProps : List (String × JSData) → List (String × JSData)
  | [] => []
  | (k, v) :: rest =>
    match v with
    | .undefined => jsonProps rest
    | _ => (k, jsonValue v) :: jsonProps rest
end

/-- The string that `localStorage.setItem(key, JSON.stringify(value))` stores:
`JSON.stringify(undefined)` is `undefined`, which `setItem` turns into the text `undefined`. -/
def jsonStringify : JSData → StoredText
  | .undefined => .malformed "undefined"
  | d => .json (jsonValue d)

/-- The browser's `localStorage`: a finite map from keys to strings. -/
abbrev Storage := List (String × StoredText)

/-- `localStorage.getItem(key)`; `none` is the `null` returned for a missing key. -/
def getItem (key : String) : Storage → Option StoredText
  | [] => none
  | (k, v) :: rest => if k = key then some v else getItem key rest

/-- `localStorage.removeItem(key)`. -/
def removeItem (key : String) : Storage → Storage
  | [] => []
  | (k, v) :: rest => if k = key then removeItem key rest else (k, v) :: removeItem key rest

/-- `localStorage.setItem(key, value)`. -/
def setItem (key : String) (value : StoredText) (st : Storage) : Storage :=
  (key, value) :: removeItem key st

/-! ## `AuthManager` -/

/-- `AuthManager.getAuthToken()`. -/
def getAuthToken (st : Storage) : Option StoredText :=
  getItem AUTH_TOKEN_KEY st

/-- `AuthManager.setAuthToken(token)`. -/
def setAuthToken (token : StoredText) (st : Storage) : Storage :=
  setItem AUTH_TOKEN_KEY token st

/-- `AuthManager.removeAuthToken()`. -/
def removeAuthToken (st : Storage) : Storage :=
  removeItem USER_DATA_KEY (removeItem AUTH_TOKEN_KEY st)

/-- The operand of `JSON.parse` in `getCurrentUser`: `localStorage.getItem(USER_DATA_KEY) || '{}'`. -/
def userTextOrDefault (st : Storage) : StoredText :=
  match getItem USER_DATA_KEY st with
  | some text => if text.truthy then text else .json (.obj [])
  | none => .json (.obj [])

/-- `AuthManager.getCurrentUser()`: the `try` returns whatever `JSON.parse` yields, the `catch`
logs and returns `{}`. -/
def getCurrentUser (st : Storage) : JSData :=
  match jsonParse (userTextOrDefault st) with
  | .ok value => value
  | .error _ => .obj []

/-- `AuthManager.setCurrentUser(userData)`. -/
def setCurrentUser (userData : JSData) (st : Storage) : Storage :=
  setItem USER_DATA_KEY (jsonStringify userData) st

/-- Truthiness of the result of `getAuthToken()`. -/
def tokenPresent (st : Storage) : Bool :=
  match getAuthToken st with
  | some token => token.truthy
  | none => false

/-- `AuthManager.isLoggedIn()`: `!!this.getAuthToken() && !!this.getCurrentUser().id`. -/
def isLoggedIn (st : Storage) : Except JSError Bool :=
  if tokenPresent st then do
    let id ← getField (getCurrentUser st) .id
    return truthy id
  else
    .ok false

/-- Strict equality `v === s` against a string. -/
def strictEqString (v : JSVal) (s : String) : Bool :=
  match v with
  | .data (.str t) => t == s
  | _ => false

/-- `AuthManager.hasRole(requiredRole)`: `user.role === requiredRole`. -/
def hasRole (st : Storage) (requiredRole : String) : Except JSError Bool := do
  let role ← getField (getCurrentUser st) .role
  return strictEqString role requiredRole

/-! ## The page: storage, location, notification and timers -/

/-- What a pending `setTimeout` callback of the page does when it fires. -/
inductive TimerAction where
  /-- `() => AuthManager.redirectBasedOnRole()` of the bootstrap handler. -/
  | redirectBasedOnRole
  /-- The auto-dismiss callback of `showNotification` for the notification element `id`. -/
  | dismissNotification (id : Nat)
  deriving DecidableEq, Repr

/-- The part of the browser state that the modelled code reads and writes. -/
structure Page where
  /-- Contents of `localStorage`. -/
  storage : Storage
  /-- The address the window shows or was last told to navigate to (`window.location.href`). -/
  location : String
  /-- The notification element in the document, as (element, message, type). -/
  notification : Option (Nat × String × String)
  /-- Number of notification elements created so far (names the next element). -/
  created : Nat
  /-- Pending timers, as (delay in ms, callback). -/
  timers : List (Nat × TimerAction)
  /-- Number of `console.error` calls so far. -/
  errorsLogged : Nat

/-- `AuthManager.logout()`. -/
def logout (pg : Page) : Page :=
  { pg with storage := removeAuthToken pg.storage, location := "/login" }

/-- `AuthManager.redirectBasedOnRole()`: nothing happens for a falsy role, otherwise the `switch`
picks the landing page. -/
def redirectBasedOnRole (pg : Page) : Except JSError Page := do
  let role ← getField (getCurrentUser pg.storage) .role
  if !truthy role then return pg
  else if strictEqString role "ADMIN" then return { pg with location := "/admin/dashboard" }
  else if strictEqString role "DOCTOR" then return { pg with location := "/doctor/patient-records" }
  else if strictEqString role "PATIENT" then return { pg with location := "/patient/doctors" }
  else return { pg with location := "/" }

/-- `UIUtils.showNotification(message, type, duration)`: existing notifications are removed, the
new one is inserted and its removal is scheduled. -/
def showNotification (message type : String) (duration : Nat) (pg : Page) : Page :=
  { pg with notification := some (pg.created, message, type),
            created := pg.created + 1,
            timers := pg.timers ++ [(duration, .dismissNotification pg.created)] }

/-! ## `ApiClient.request` -/

/-- What `await fetch(url, config)` produces: a rejection, or a response with its status and
its body. -/
inductive FetchOutcome where
  | rejected (e : JSError)
  | response (status : Nat) (body : StoredText)

/-- `response.ok`: the status is in the range 200 to 299. -/
def statusOk (status : Nat) : Bool :=
  200 ≤ status && status ≤ 299

/-- The handler `catch (error) { console.error(...); throw error; }`. -/
def logAndRethrow (pg : Page) (e : JSError) : Page × Except JSError JSVal :=
  ({ pg with errorsLogged := pg.errorsLogged + 1 }, .error e)

/-- `ApiClient.request(endpoint, options)` from the point where `fetch` settles: the new page
state and the settlement of the returned promise. -/
def request (pg : Page) : FetchOutcome → Page × Except JSError JSVal
  | .rejected e => logAndRethrow pg e
  | .response status body =>
    if status = 401 then (logout pg, .ok (.data .undefined))
    else if !statusOk status then
      logAndRethrow pg (.error ("HTTP error! status: " ++ toString status))
    else
      match jsonParse body with
      | .ok data => (pg, .ok (.data data))
      | .error e => logAndRethrow pg e

/-! ## Page bootstrap: access control -/

/-- The constant `protectedPaths` of the bootstrap handler. -/
def protectedPaths : List String := ["/admin/", "/doctor/", "/patient/"]

/-- The `requiredRole` computed by the bootstrap handler (`none` is `null`). -/
def requiredRole (currentPath : String) : Option String :=
  if includes currentPath "/admin/" then some "ADMIN"
  else if includes currentPath "/doctor/" then some "DOCTOR"
  else if includes currentPath "/patient/" then some "PATIENT"
  else none

/-- The authentication check of the `DOMContentLoaded` handler for the page at `currentPath`. -/
def checkAccess (currentPath : String) (pg : Page) : Except JSError Page :=
  if protectedPaths.any (fun path => includes currentPath path) then do
    let loggedIn ← isLoggedIn pg.storage
    if !loggedIn then
      return { pg with location := "/login" }
    else
      match requiredRole currentPath with
      | some role => do
        let allowed ← hasRole pg.storage role
        if !allowed then
          let shown := showNotification "Access denied. Insufficient permissions." "error" 4000 pg
          return { shown with timers := shown.timers ++ [(2000, .redirectBasedOnRole)] }
        else return pg
      | none => return pg
  else
    return pg

/-- Firing a timer callback. -/
def fire (action : TimerAction) (pg : Page) : Except JSError Page :=
  match action with
  | .redirectBasedOnRole => redirectBasedOnRole pg
  | .dismissNotification id =>
    match pg.notification with
    | some (shown, _, _) => if shown = id then .ok { pg with notification := none } else .ok pg
    | none => .ok pg

/-! ## `FormValidator.validateFutureDate` -/

/-- Milliseconds in a day. -/
def msPerDay : Int := 86400000

/-- The instant of local midnight at the start of the local day that contains the instant `t`
(`setHours(0, 0, 0, 0)`), for a zone whose local time is UTC plus `offset` milliseconds. -/
def startOfLocalDay (offset t : Int) : Int :=
  t - (t + offset) % msPerDay

/-- The local calendar day of an instant, counted from the epoch. -/
def localDay (offset t : Int) : Int :=
  (t + offset) / msPerDay

/-- `FormValidator.validateFutureDate(dateString)` with the clock reading `now`; `date` is the
time value of `new Date(dateString)`, `none` for an invalid date (whose comparisons are false). -/
def validateFutureDate (offset now : Int) (date : Option Int) : Bool :=
  match date with
  | none => false
  | some d => decide (d > startOfLocalDay offset now)

/-! ## Reading of the request and access control rules -/

/-- The number written by a string of decimal digits. -/
def decimalValue (cs : List Char) : Nat :=
  cs.foldl (fun n c => 10 * n + (c.toNat - '0'.toNat)) 0

/-- The status code carried by an error that `request` raises for a failed response: the number
written after the fixed text of the message. -/
def carriedStatus : JSError → Option Nat
  | .error msg =>
    if "HTTP error! status: ".data <+: msg.data then
      some (decimalValue (msg.data.drop "HTTP error! status: ".data.length))
    else none
  | _ => none

/-- The role mapping of the specification: ADMIN, DOCTOR and PATIENT have their landing pages,
any other role goes to `/`, and a missing (falsy) role means no navigation. -/
def landingPage (role : JSVal) : Option String :=
  if truthy role then
    match role with
    | .data (.str name) =>
      if name = "ADMIN" then some "/admin/dashboard"
      else if name = "DOCTOR" then some "/doctor/patient-records"
      else if name = "PATIENT" then some "/patient/doctors"
      else some "/"
    | _ => some "/"
  else none

/-- The page once the bootstrap handler has denied access: the notice is shown, its dismissal
and the redirect are scheduled. -/
def accessDenied (pg : Page) : Page :=
  { pg with notification := some (pg.created, "Access denied. Insufficient permissions.", "error"),
            created := pg.created + 1,
            timers := pg.timers ++ [(4000, .dismissNotification pg.created),
              (2000, .redirectBasedOnRole)] }

/-- A page with empty storage, at the address `/`. -/
def blankPage : Page :=
  { storage := [], location := "/", notification := none, created := 0, timers := [],
    errorsLogged := 0 }

/-- A page state for the address `/patient/doctors` visited without a session. -/
def anonymousVisit : Page :=
  { storage := [], location := "/patient/doctors", notification := none, created := 0,
    timers := [], errorsLogged := 0 }

/-- A page state for the address `/admin/users`: a token is present and the stored user record
has an `id` and no `role`. -/
def rolelessVisit : Page :=
  { storage := [("authToken", .malformed "abc"), ("user", .json (.obj [("id", .num 1)]))],
    location := "/admin/users", notification := none, created := 0, timers := [],
    errorsLogged := 0 }

/-- A page state for the address `/admin/users` visited by a logged-in user with role ADMIN. -/
def adminVisit : Page :=
  { storage := [("authToken", .malformed "abc"),
      ("user", .json (.obj [("id", .num 3), ("role", .str "ADMIN")]))],
    location := "/admin/users", notification := none, created := 0, timers := [],
    errorsLogged := 0 }

/-- A page state for the address `/admin/users` visited by a logged-in user with role DOCTOR. -/
def doctorVisit : Page :=
  { storage := [("authToken", .malformed "abc"),
      ("user", .json (.obj [("id", .num 2), ("role", .str "DOCTOR")]))],
    location := "/admin/users", notification := none, created := 0, timers := [],
    errorsLogged := 0 }

/-! ## `UIUtils.debounce` over an explicit timer model -/

/-- A pending `setTimeout(later, wait)` of a debounced function: the timer id returned by
`setTimeout`, the instant at which it is due, and the arguments captured by `later`. -/
structure Timer (α : Type) where
  id : Nat
  due : Nat
  args : α

/-- The state of a function returned by `debounce(func, wait)` and of the host timers:
the closure variable `timeout` (`none` is `undefined`), the table of pending timers, the id the
next `setTimeout` returns, and the calls of `func` made so far as (instant, arguments). -/
structure Debounced (α : Type) where
  timeout : Option Nat
  pending : List (Timer α)
  nextId : Nat
  delivered : List (Nat × α)

/-- The state right after `debounce(func, wait)` returns. -/
def Debounced.init {α : Type} : Debounced α :=
  { timeout := none, pending := [], nextId := 1, delivered := [] }

/-- `clearTimeout(id)`: the timer with that id, if it is pending, is cancelled. -/
def clearTimeout {α : Type} (id : Option Nat) (pending : List (Timer α)) : List (Timer α) :=
  match id with
  | none => pending
  | some i => pending.filter (fun tm => tm.id != i)

/-- An invocation `executedFunction(...args)` at the instant `now`:
`clearTimeout(timeout); timeout = setTimeout(later, wait)`. -/
def invoke {α : Type} (wait now : Nat) (args : α) (s : Debounced α) : Debounced α :=
  { s with timeout := some s.nextId,
           pending := clearTimeout s.timeout s.pending ++ [⟨s.nextId, now + wait, args⟩],
           nextId := s.nextId + 1 }

/-- The host fires the timer `tm` at the instant it is due: the timer leaves the table and its
callback `later` runs, `clearTimeout(timeout); func(...args)`. -/
def fireTimer {α : Type} (tm : Timer α) (s : Debounced α) : Debounced α :=
  { s with pending := clearTimeout s.timeout (s.pending.filter (fun other => other.id != tm.id)),
           delivered := s.delivered ++ [(tm.due, tm.args)] }

/-- The pending timer that fires next among those due no later than `limit` (`none`: no limit):
the one with the least due instant, the one set first among equals. -/
def nextDue {α : Type} (limit : Option Nat) (pending : List (Timer α)) : Option (Timer α) :=
  pending.foldl (fun best tm =>
    if (match limit with | none => true | some now => decide (tm.due ≤ now)) then
      match best with
      | none => some tm
      | some b => if tm.due < b.due then some tm else some b
    else best) none

/-- The host fires, in order, the timers due no later than `limit`; each firing removes a timer
and `later` sets none, so as many rounds as there are pending timers suffice. -/
def runTimers {α : Type} (limit : Option Nat) : Nat → Debounced α → Debounced α
  | 0, s => s
  | fuel + 1, s =>
    match nextDue limit s.pending with
    | none => s
    | some tm => runTimers limit fuel (fireTimer tm s)

/-- Time passes until the instant `now`: the timers due by then fire (a timer due exactly at
the instant of an invocation has fired before it). -/
def advance {α : Type} (now : Nat) (s : Debounced α) : Debounced α :=
  runTimers (some now) s.pending.length s

/-- Time passes without further invocations until no timer is pending. -/
def settle {α : Type} (s : Debounced α) : Debounced α :=
  runTimers none s.pending.length s

/-- A run of the debounced function: the invocations `calls`, as (instant, arguments) in the
order of their instants, then quiescence. -/
def runCalls {α : Type} (wait : Nat) : List (Nat × α) → Debounced α → Debounced α
  | [], s => settle s
  | (now, args) :: rest, s => runCalls wait rest (invoke wait now args (advance now s))

/-- The calls of `func` that a run of invocations produces, as (instant, arguments). -/
def deliveries {α : Type} (wait : Nat) (calls : List (Nat × α)) : List (Nat × α) :=
  (runCalls wait calls Debounced.init).delivered

/-- The deliveries the specification asks for: one for each invocation that is not followed by
another invocation before its instant plus `wait`, at that instant plus `wait`, with the
arguments of that invocation. -/
def expectedDeliveries {α : Type} (wait : Nat) : List (Nat × α) → List (Nat × α)
  | [] => []
  | (t, args) :: rest =>
    if rest.any (fun later => decide (later.1 < t + wait)) then expectedDeliveries wait rest
    else (t + wait, args) :: expectedDeliveries wait rest

/-! ## `DataUtils.generateTimeSlots` -/

/-- `date.setHours(hour, 0, 0, 0)` on a date of today: the wall-clock time, in minutes counted
from today's local midnight (hours outside 0..23 roll over into the neighbouring days). -/
def setHours (hour : Int) : Int :=
  60 * hour

/-- `date.getMinutes()`: the minute of the hour. -/
def getMinutes (t : Int) : Int :=
  t % 60

/-- `date.setMinutes(minutes)`: the minute of the hour is replaced, an overflow carries. -/
def setMinutes (t minutes : Int) : Int :=
  t - t % 60 + minutes

/-- A number below 100 written with two digits. -/
def pad2 (n : Nat) : String :=
  if n < 10 then "0" ++ toString n else toString n

/-- `date.toTimeString().slice(0, 5)`: hour of the day and minute of the hour, as `HH:MM`. -/
def toTimeString5 (t : Int) : String :=
  pad2 (t / 60 % 24).toNat ++ ":" ++ pad2 (t % 60).toNat

/-- The `while (current < endTime)` loop of `generateTimeSlots`, run for at most `fuel` tests of
its condition; `none` when the loop is still running after that many. -/
def timeSlotsLoop (endTime intervalMinutes : Int) : Nat → Int → List String → Option (List String)
  | 0, _, _ => none
  | fuel + 1, current, slots =>
    if current < endTime then
      timeSlotsLoop endTime intervalMinutes fuel
        (setMinutes current (getMinutes current + intervalMinutes))
        (slots ++ [toTimeString5 current])
    else some slots

/-- `DataUtils.generateTimeSlots(startHour, endHour, intervalMinutes)`, with the loop bounded by
`fuel`. -/
def generateTimeSlots (fuel : Nat) (startHour endHour intervalMinutes : Int) :
    Option (List String) :=
  timeSlotsLoop (setHours endHour) intervalMinutes fuel (setHours startHour) []

/-- The number of slots the specification gives, the ceiling of
`60 * (endHour - startHour) / intervalMinutes`, computed in integers. -/
def slotCount (startHour endHour intervalMinutes : Int) : Nat :=
  ((60 * (endHour - startHour) + intervalMinutes - 1) / intervalMinutes).toNat

/-- The slot times the specification gives, in minutes of the day: from `startHour:00` on in
steps of `intervalMinutes`. -/
def slotTimes (startHour endHour intervalMinutes : Int) : List Int :=
  (List.range (slotCount startHour endHour intervalMinutes)).map
    fun (k : Nat) => 60 * startHour + (k : Int) * intervalMinutes

/-- The minute of the day that an `HH:MM` string denotes. -/
def minuteOfDay (slot : String) : Int :=
  60 * decimalValue (slot.data.take 2) + decimalValue (slot.data.drop 3)

/-! # Theorems -/

/-! ## C3: `getNestedValue` -/

/-- C3, evaluated at the failing inputs, for every host.  In the record with `a` holding the
number 0 the intermediate segment `b` of the path `a.b.c` is missing, yet `getNestedValue`
returns 0, which is neither `undefined` nor `null`; and on the empty record the path
`constructor.caller` makes it throw a `TypeError`, because the reducer reads `caller` off the
inherited built-in function `Object`. -/
theorem getNestedValue_leaks_and_throws (host : Host) :
    getNestedValue host (.data (.obj [("a", .num 0)])) "a.b.c" = .ok (.data (.num 0)) ∧
    isNullish (.data (.num 0)) = false ∧
    getNestedValue host (.data (.obj [])) "constructor.caller"
      = .error (.typeError
          "'caller', 'callee', and 'arguments' properties may not be accessed") :=
  ⟨rfl, rfl, rfl⟩

/-! ## C1: `filterArray` -/

/-- C1, evaluated at the failing input, for every host: the field `n` of the only item holds the number 0, whose
string form "0" contains the term "0", yet `filterArray` drops the item (the guard
`value &&` treats 0 as no value), while it keeps an item holding 10. -/
theorem filterArray_drops_zero (host : Host) :
    (toStr (.data (.num 0))).map (fun s => includes (toLowerCase s) (toLowerCase "0"))
      = .ok true ∧
    filterArray host [.obj [("n", .num 0)]] "0" ["n"] = .ok [] ∧
    filterArray host [.obj [("n", .num 10)]] "0" ["n"] = .ok [.obj [("n", .num 10)]] :=
  ⟨rfl, rfl, rfl⟩

/-! ## C2: `groupBy` -/

/-- C2, evaluated at the failing inputs, for every host: grouping by a field whose value is "constructor",
"toString" or "__proto__" throws a `TypeError` instead of returning groups. -/
theorem groupBy_throws_on_inherited_key (host : Host) :
    groupBy host [.obj [("k", .str "constructor")]] "k"
      = .error (.typeError "(intermediate value).push is not a function") ∧
    groupBy host [.obj [("k", .str "toString")]] "k"
      = .error (.typeError "(intermediate value).push is not a function") ∧
    groupBy host [.obj [("k", .str "__proto__")]] "k"
      = .error (.typeError "(intermediate value).push is not a function") :=
  ⟨rfl, rfl, rfl⟩

/-! ## C9: `validateRequired` -/

/-- C9, evaluated at the failing inputs: for the number 0 `validateRequired` returns the number
0 (falsy) although the string form "0" is not blank, and for the empty string it returns the
empty string, not the boolean `false`; only for a truthy input is the result a boolean. -/
theorem validateRequired_returns_operand :
    validateRequired (.num 0) = .ok (.data (.num 0)) ∧
    (toStr (.data (.num 0))).map (fun s => decide ((trim s).length > 0)) = .ok true ∧
    validateRequired (.str "") = .ok (.data (.str "")) ∧
    validateRequired (.str "   ") = .ok (.data (.bool false)) :=
  ⟨rfl, rfl, rfl, rfl⟩

/-! ## Storage and JSON: lemmas -/

theorem getItem_removeItem_self (key : String) (st : Storage) :
    getItem key (removeItem key st) = none := by
  induction st with
  | nil => rfl
  | cons e rest ih =>
    obtain ⟨k, v⟩ := e
    by_cases h : k = key <;> simp [removeItem, getItem, h, ih]

theorem getItem_removeItem_of_ne (key other : String) (st : Storage) (h : other ≠ key) :
    getItem key (removeItem other st) = getItem key st := by
  induction st with
  | nil => rfl
  | cons e rest ih =>
    obtain ⟨k, v⟩ := e
    by_cases hk : k = other
    · have : k ≠ key := by rw [hk]; exact h
      simp [removeItem, getItem, hk, ih, h]
    · by_cases hk2 : k = key
      · subst hk2
        simp [removeItem, getItem, hk]
      · simp [removeItem, getItem, hk, hk2, ih]

theorem getItem_setItem_self (key : String) (value : StoredText) (st : Storage) :
    getItem key (setItem key value st) = some value := by
  simp [setItem, getItem]

theorem getItem_setItem_of_ne (key other : String) (value : StoredText) (st : Storage)
    (h : other ≠ key) : getItem key (setItem other value st) = getItem key st := by
  simp [setItem, getItem, h, getItem_removeItem_of_ne key other st h]

theorem truthy_jsonValue (d : JSData) : truthy (.data (jsonValue d)) = truthy (.data d) := by
  cases d <;> simp [jsonValue, truthy]

theorem lookupOwn_jsonProps (key : String) (props : List (String × JSData)) (v : JSData)
    (h : lookupOwn key props = some v) (hv : v ≠ .undefined) :
    lookupOwn key (jsonProps props) = some (jsonValue v) := by
  induction props with
  | nil => simp [lookupOwn] at h
  | cons e rest ih =>
    obtain ⟨k, w⟩ := e
    by_cases hk : k = key
    · simp only [lookupOwn, hk, if_true, Option.some.injEq] at h
      subst h
      cases w <;> simp_all [jsonProps, lookupOwn]
    · simp only [lookupOwn, hk, if_false] at h
      cases w <;> simp [jsonProps, lookupOwn, hk, ih h]

theorem getCurrentUser_setCurrentUser (props : List (String × JSData)) (st : Storage) :
    getCurrentUser (setCurrentUser (.obj props) st) = .obj (jsonProps props) := by
  simp [getCurrentUser, userTextOrDefault, setCurrentUser, getItem_setItem_self, jsonStringify,
    jsonValue, StoredText.truthy, jsonParse]

theorem getCurrentUser_removeAuthToken (st : Storage) :
    getCurrentUser (removeAuthToken st) = .obj [] := by
  simp [getCurrentUser, userTextOrDefault, removeAuthToken, getItem_removeItem_self, jsonParse]

theorem tokenPresent_removeAuthToken (st : Storage) : tokenPresent (removeAuthToken st) = false := by
  have h : getItem AUTH_TOKEN_KEY (removeAuthToken st) = none := by
    unfold removeAuthToken
    rw [getItem_removeItem_of_ne _ _ _ (by decide), getItem_removeItem_self]
  simp [tokenPresent, getAuthToken, h]

/-! ## C4: `getCurrentUser` -/

/-- C4, evaluated at the failing input: with the stored user text `null` (a valid JSON text)
`getCurrentUser` returns `null`, not a record, and with a token present both `isLoggedIn` and
`hasRole` throw a `TypeError` on reading `.id` and `.role` from it; a stored number is returned
as a number. -/
theorem getCurrentUser_returns_null :
    getCurrentUser [("authToken", .malformed "abc"), ("user", .json .null)] = .null ∧
    isLoggedIn [("authToken", .malformed "abc"), ("user", .json .null)]
      = .error (.typeError "Cannot read properties of null") ∧
    hasRole [("authToken", .malformed "abc"), ("user", .json .null)] "ADMIN"
      = .error (.typeError "Cannot read properties of null") ∧
    getCurrentUser [("user", .json (.num 5))] = .num 5 :=
  ⟨rfl, rfl, rfl, rfl⟩

/-! ## C5: session round trip -/

/-- C5: from any storage state, after `setAuthToken(t)` with a non-empty token and
`setCurrentUser(u)` with a record `u` whose `id` is truthy and whose `role` is the string `r`,
`isLoggedIn()` and `hasRole(r)` are true; and after `removeAuthToken()` from any state the
token and user entries are gone, `isLoggedIn()` is false and `hasRole(r')` is false for every
role string `r'`. -/
theorem session_round_trip (st : Storage) (t : StoredText) (props : List (String × JSData))
    (idv : JSData) (r : String)
    (ht : t.truthy = true)
    (hid : lookupOwn "id" props = some idv) (hidv : truthy (.data idv) = true)
    (hrole : lookupOwn "role" props = some (.str r)) :
    isLoggedIn (setCurrentUser (.obj props) (setAuthToken t st)) = .ok true ∧
    hasRole (setCurrentUser (.obj props) (setAuthToken t st)) r = .ok true ∧
    getItem AUTH_TOKEN_KEY (removeAuthToken st) = none ∧
    getItem USER_DATA_KEY (removeAuthToken st) = none ∧
    isLoggedIn (removeAuthToken st) = .ok false ∧
    ∀ r' : String, hasRole (removeAuthToken st) r' = .ok false := by
  have hne : idv ≠ .undefined := by
    intro h; rw [h] at hidv; simp [truthy] at hidv
  have hid' := lookupOwn_jsonProps "id" props idv hid hne
  have hrole' := lookupOwn_jsonProps "role" props (.str r) hrole (by simp)
  have htok : tokenPresent (setCurrentUser (.obj props) (setAuthToken t st)) = true := by
    unfold tokenPresent getAuthToken setCurrentUser setAuthToken
    rw [getItem_setItem_of_ne _ _ _ _ (by decide), getItem_setItem_self]
    exact ht
  refine ⟨?_, ?_, ?_, ?_, ?_, ?_⟩
  · simp only [isLoggedIn, htok, if_true, getCurrentUser_setCurrentUser, getField,
      UserField.key, hid']
    simp [truthy_jsonValue, hidv, bind, Except.bind, pure, Except.pure]
  · simp only [hasRole, getCurrentUser_setCurrentUser, getField, UserField.key, hrole']
    simp [jsonValue, strictEqString, bind, Except.bind, pure, Except.pure]
  · unfold removeAuthToken
    rw [getItem_removeItem_of_ne _ _ _ (by decide), getItem_removeItem_self]
  · unfold removeAuthToken
    rw [getItem_removeItem_self]
  · simp [isLoggedIn, tokenPresent_removeAuthToken]
  · intro r'
    simp only [hasRole, getCurrentUser_removeAuthToken]
    rfl

/-- Witness for C5: the token `abc` and the user record with `id` 1 and `role` ADMIN, written
over a storage that held another session. -/
theorem session_round_trip_witness :
    isLoggedIn (setCurrentUser (.obj [("id", .num 1), ("role", .str "ADMIN")])
      (setAuthToken (.malformed "abc")
        [("user", .json (.obj [("id", .num 7), ("role", .str "PATIENT")]))])) = .ok true ∧
    hasRole (setCurrentUser (.obj [("id", .num 1), ("role", .str "ADMIN")])
      (setAuthToken (.malformed "abc")
        [("user", .json (.obj [("id", .num 7), ("role", .str "PATIENT")]))])) "ADMIN"
      = .ok true ∧
    isLoggedIn (removeAuthToken
      [("user", .json (.obj [("id", .num 7), ("role", .str "PATIENT")]))]) = .ok false :=
  have h := session_round_trip
    [("user", .json (.obj [("id", .num 7), ("role", .str "PATIENT")]))]
    (.malformed "abc") [("id", .num 1), ("role", .str "ADMIN")] (.num 1) "ADMIN"
    (by decide) rfl (by decide) rfl
  ⟨h.1, h.2.1, h.2.2.2.2.1⟩

/-! ## Decimal notation: lemmas -/

theorem decimalValue_append_single (cs : List Char) (c : Char) :
    decimalValue (cs ++ [c]) = 10 * decimalValue cs + (c.toNat - '0'.toNat) := by
  simp [decimalValue, List.foldl_append]

theorem digitChar_value (d : Nat) (h : d < 10) : (Nat.digitChar d).toNat - '0'.toNat = d := by
  interval_cases d <;> rfl

theorem toDigitsCore_acc (fuel : Nat) : ∀ (n : Nat) (ds : List Char),
    Nat.toDigitsCore 10 fuel n ds = Nat.toDigitsCore 10 fuel n [] ++ ds := by
  induction fuel with
  | zero => intro n ds; simp [Nat.toDigitsCore]
  | succ f ih =>
    intro n ds
    simp only [Nat.toDigitsCore]
    split
    · simp
    · rw [ih (n / 10) (_ :: ds), ih (n / 10) [_]]; simp

theorem decimalValue_toDigitsCore (fuel : Nat) : ∀ n : Nat, n < fuel →
    decimalValue (Nat.toDigitsCore 10 fuel n []) = n := by
  induction fuel with
  | zero => intro n h; omega
  | succ f ih =>
    intro n h
    simp only [Nat.toDigitsCore]
    split
    · have hlt : n < 10 := by omega
      have hmod : n % 10 = n := by omega
      rw [hmod]
      simpa [decimalValue] using digitChar_value n hlt
    · rw [toDigitsCore_acc, decimalValue_append_single, ih (n / 10) (by omega),
        digitChar_value (n % 10) (Nat.mod_lt _ (by decide))]
      omega

theorem decimalValue_repr (n : Nat) : decimalValue (toString n).data = n := by
  show decimalValue (Nat.repr n).data = n
  simp only [Nat.repr, Nat.toDigits, List.asString]
  exact decimalValue_toDigitsCore (n + 1) n (by omega)

theorem carriedStatus_message (status : Nat) :
    carriedStatus (.error ("HTTP error! status: " ++ toString status)) = some status := by
  simp only [carriedStatus, String.data_append]
  rw [if_pos (List.prefix_append _ _), List.drop_left, decimalValue_repr]

/-! ## C6: `ApiClient.request` -/

/-- C6, as stated, fails: a success response need not have a JSON body.  For a response with
status 204 and an empty body `response.json()` fails, and `request` logs the failure and
rejects with the parse error instead of returning a parsed body. -/
theorem request_empty_success_rejects :
    statusOk 204 = true ∧
    (request blankPage (.response 204 (.malformed ""))).2
      = .error (.syntaxError "Unexpected token in JSON") ∧
    (request blankPage (.response 204 (.malformed ""))).1.errorsLogged = 1 :=
  ⟨rfl, rfl, rfl⟩

/-- C6, amended: how `request` settles, by response status.  For status 401 the session is
cleared (token and user entries removed), the location is set to `/login` and the promise
resolves with `undefined`.  For every other status outside 200..299 it logs and rejects with the
plain error `new Error("HTTP error! status: " + status)`, whose message carries the status
code, and leaves storage and location alone.  For a status in 200..299 it resolves with the
value of the body when the body is JSON text, and logs and rejects with the parse error when it
is not. -/
theorem request_by_status (pg : Page) (status : Nat) (body : StoredText) :
    (status = 401 →
      (request pg (.response status body)).2 = .ok (.data .undefined) ∧
      getItem AUTH_TOKEN_KEY (request pg (.response status body)).1.storage = none ∧
      getItem USER_DATA_KEY (request pg (.response status body)).1.storage = none ∧
      (request pg (.response status body)).1.location = "/login") ∧
    (status ≠ 401 → statusOk status = false →
      (request pg (.response status body)).2
        = .error (.error ("HTTP error! status: " ++ toString status)) ∧
      carriedStatus (.error ("HTTP error! status: " ++ toString status)) = some status ∧
      (request pg (.response status body)).1.storage = pg.storage ∧
      (request pg (.response status body)).1.location = pg.location) ∧
    (statusOk status = true → ∀ v, body = .json v →
      request pg (.response status body) = (pg, .ok (.data v))) ∧
    (statusOk status = true → ∀ text, body = .malformed text →
      request pg (.response status body)
        = ({ pg with errorsLogged := pg.errorsLogged + 1 },
           .error (.syntaxError "Unexpected token in JSON"))) := by
  refine ⟨?_, ?_, ?_, ?_⟩
  · intro h
    subst h
    have hreq : request pg (.response 401 body) = (logout pg, .ok (.data .undefined)) := by
      simp [request]
    rw [hreq]
    refine ⟨rfl, ?_, ?_, rfl⟩ <;> simp only [logout]
    · unfold removeAuthToken
      rw [getItem_removeItem_of_ne _ _ _ (by decide), getItem_removeItem_self]
    · unfold removeAuthToken
      rw [getItem_removeItem_self]
  · intro h hok
    refine ⟨?_, carriedStatus_message status, ?_, ?_⟩ <;>
      simp [request, h, hok, logAndRethrow]
  · intro hok v hv
    have h : status ≠ 401 := by
      intro h; subst h; simp [statusOk] at hok
    simp [request, h, hok, hv, jsonParse]
  · intro hok text hv
    have h : status ≠ 401 := by
      intro h; subst h; simp [statusOk] at hok
    simp [request, h, hok, hv, jsonParse, logAndRethrow]

/-- Witness for C6: the statuses 401, 500 and 200, the last with a JSON body and with a body
that is not JSON. -/
theorem request_by_status_witness :
    (request ⟨[("authToken", .malformed "abc")], "/patient/doctors", none, 0, [], 0⟩
      (.response 401 (.malformed ""))).1.location = "/login" ∧
    ((request blankPage (.response 500 (.malformed "oops"))).2
        = .error (.error ("HTTP error! status: " ++ toString 500)) ∧
      carriedStatus (.error ("HTTP error! status: " ++ toString 500)) = some 500 ∧
      (request blankPage (.response 500 (.malformed "oops"))).1.storage = blankPage.storage ∧
      (request blankPage (.response 500 (.malformed "oops"))).1.location
        = blankPage.location) ∧
    request blankPage (.response 200 (.json (.obj [("ok", .bool true)])))
      = (blankPage, .ok (.data (.obj [("ok", .bool true)]))) ∧
    request blankPage (.response 200 (.malformed "<html>"))
      = ({ blankPage with errorsLogged := blankPage.errorsLogged + 1 },
         .error (.syntaxError "Unexpected token in JSON")) :=
  ⟨((request_by_status _ 401 _).1 rfl).2.2.2,
   (request_by_status _ 500 _).2.1 (by decide) (by decide),
   (request_by_status _ 200 _).2.2.1 (by decide) _ rfl,
   (request_by_status _ 200 _).2.2.2 (by decide) _ rfl⟩

/-! ## C7: access control at page load -/

theorem redirect_landing (pg : Page) (roleVal : JSVal)
    (h : getField (getCurrentUser pg.storage) .role = .ok roleVal) :
    redirectBasedOnRole pg = .ok (match landingPage roleVal with
      | some target => { pg with location := target }
      | none => pg) := by
  simp only [redirectBasedOnRole, h, bind, Except.bind, pure, Except.pure]
  cases htr : truthy roleVal with
  | false => simp [landingPage, htr]
  | true =>
    cases roleVal with
    | native n => simp [landingPage, htr, strictEqString]
    | data d =>
      cases d with
      | str name =>
        by_cases h1 : name = "ADMIN"
        · subst h1
          simp [landingPage, strictEqString, truthy]
        · by_cases h2 : name = "DOCTOR"
          · subst h2
            simp [landingPage, strictEqString, truthy]
          · by_cases h3 : name = "PATIENT"
            · subst h3
              simp [landingPage, strictEqString, truthy]
            · simp [landingPage, htr, strictEqString, h1, h2, h3]
      | _ => simp [landingPage, htr, strictEqString]

theorem hasRole_eq_ok (st : Storage) (role : String) (b : Bool)
    (h : hasRole st role = .ok b) :
    ∃ roleVal, getField (getCurrentUser st) .role = .ok roleVal ∧
      strictEqString roleVal role = b := by
  unfold hasRole at h
  cases hf : getField (getCurrentUser st) .role with
  | error e => simp [hf, bind, Except.bind] at h
  | ok roleVal =>
    simp only [hf, bind, Except.bind, pure, Except.pure, Except.ok.injEq] at h
    exact ⟨roleVal, rfl, h⟩

theorem requiredRole_of_segment (currentPath role : String)
    (hrole :
      (includes currentPath "/admin/" = true ∧ role = "ADMIN") ∨
      (includes currentPath "/admin/" = false ∧ includes currentPath "/doctor/" = true ∧
        role = "DOCTOR") ∨
      (includes currentPath "/admin/" = false ∧ includes currentPath "/doctor/" = false ∧
        includes currentPath "/patient/" = true ∧ role = "PATIENT")) :
    protectedPaths.any (fun path => includes currentPath path) = true ∧
    requiredRole currentPath = some role := by
  rcases hrole with ⟨h1, rfl⟩ | ⟨h1, h2, rfl⟩ | ⟨h1, h2, h3, rfl⟩ <;>
    simp [protectedPaths, requiredRole, *]

/-- C7, as stated, fails: on `/admin/users`, with a token and a stored user record that has an
`id` and no `role`, the session is logged in and its role does not match, the notice is shown
and the redirect is scheduled, but when the timer fires `redirectBasedOnRole` returns at
`if (!user.role) return;` and the page stays at `/admin/users`. -/
theorem checkAccess_roleless_user_stays :
    isLoggedIn rolelessVisit.storage = .ok true ∧
    hasRole rolelessVisit.storage "ADMIN" = .ok false ∧
    (checkAccess "/admin/users" rolelessVisit).map (fun pg => pg.timers)
      = .ok [(4000, .dismissNotification 0), (2000, .redirectBasedOnRole)] ∧
    ((checkAccess "/admin/users" rolelessVisit).bind (fire .redirectBasedOnRole)).map
      (fun pg => pg.location) = .ok "/admin/users" :=
  ⟨rfl, rfl, rfl, rfl⟩

/-- C7, amended.  Let the path contain `/admin/`, `/doctor/` or `/patient/` and let `role` be
the role it requires: ADMIN if it contains `/admin/`, else DOCTOR if it contains `/doctor/`,
else PATIENT.  If the session is not logged in the page navigates to `/login`.  If it is logged
in and `hasRole(role)` holds the page is left as it is.  If it is logged in and `hasRole(role)`
fails, the access-denied notice is shown and a 2000 ms timer is scheduled; when that timer fires
the page navigates to `/admin/dashboard` for the role ADMIN, to `/doctor/patient-records` for
DOCTOR, to `/patient/doctors` for PATIENT and to `/` for any other truthy role, and it does not
navigate when the user record has no role or a falsy one.  (Nothing is said of a session for
which `isLoggedIn` or `hasRole` throws.) -/
theorem checkAccess_protected (currentPath : String) (pg : Page) (role : String)
    (hrole :
      (includes currentPath "/admin/" = true ∧ role = "ADMIN") ∨
      (includes currentPath "/admin/" = false ∧ includes currentPath "/doctor/" = true ∧
        role = "DOCTOR") ∨
      (includes currentPath "/admin/" = false ∧ includes currentPath "/doctor/" = false ∧
        includes currentPath "/patient/" = true ∧ role = "PATIENT")) :
    (isLoggedIn pg.storage = .ok false →
      checkAccess currentPath pg = .ok { pg with location := "/login" }) ∧
    (isLoggedIn pg.storage = .ok true → hasRole pg.storage role = .ok true →
      checkAccess currentPath pg = .ok pg) ∧
    (isLoggedIn pg.storage = .ok true → hasRole pg.storage role = .ok false →
      checkAccess currentPath pg = .ok (accessDenied pg) ∧
      (accessDenied pg).notification
        = some (pg.created, "Access denied. Insufficient permissions.", "error") ∧
      (2000, TimerAction.redirectBasedOnRole) ∈ (accessDenied pg).timers ∧
      (accessDenied pg).location = pg.location ∧
      ∃ roleVal, getField (getCurrentUser pg.storage) .role = .ok roleVal ∧
        (truthy roleVal = false →
          fire .redirectBasedOnRole (accessDenied pg) = .ok (accessDenied pg)) ∧
        (roleVal = .data (.str "ADMIN") → fire .redirectBasedOnRole (accessDenied pg)
          = .ok { accessDenied pg with location := "/admin/dashboard" }) ∧
        (roleVal = .data (.str "DOCTOR") → fire .redirectBasedOnRole (accessDenied pg)
          = .ok { accessDenied pg with location := "/doctor/patient-records" }) ∧
        (roleVal = .data (.str "PATIENT") → fire .redirectBasedOnRole (accessDenied pg)
          = .ok { accessDenied pg with location := "/patient/doctors" }) ∧
        (truthy roleVal = true → roleVal ≠ .data (.str "ADMIN") →
          roleVal ≠ .data (.str "DOCTOR") → roleVal ≠ .data (.str "PATIENT") →
          fire .redirectBasedOnRole (accessDenied pg)
            = .ok { accessDenied pg with location := "/" })) := by
  obtain ⟨hprot, hreq⟩ := requiredRole_of_segment currentPath role hrole
  refine ⟨?_, ?_, ?_⟩
  · intro h
    simp [checkAccess, hprot, h, bind, Except.bind, pure, Except.pure]
  · intro h hm
    simp [checkAccess, hprot, h, hreq, hm, bind, Except.bind, pure, Except.pure]
  · intro h hm
    obtain ⟨roleVal, hval, _⟩ := hasRole_eq_ok _ _ _ hm
    have hfire : fire .redirectBasedOnRole (accessDenied pg)
        = .ok (match landingPage roleVal with
          | some target => { accessDenied pg with location := target }
          | none => accessDenied pg) := redirect_landing (accessDenied pg) roleVal hval
    refine ⟨?_, rfl, by simp [accessDenied], rfl, roleVal, hval, ?_, ?_, ?_, ?_, ?_⟩
    · simp [checkAccess, hprot, h, hreq, hm, bind, Except.bind, pure, Except.pure,
        showNotification, accessDenied]
    · intro ht
      rw [hfire]
      simp [landingPage, ht]
    · intro hr
      rw [hfire, hr]
      simp [landingPage, truthy]
    · intro hr
      rw [hfire, hr]
      simp [landingPage, truthy]
    · intro hr
      rw [hfire, hr]
      simp [landingPage, truthy]
    · intro ht h1 h2 h3
      rw [hfire]
      cases roleVal with
      | native n => simp [landingPage, ht]
      | data d =>
        cases d with
        | str name =>
          have n1 : name ≠ "ADMIN" := fun e => h1 (by rw [e])
          have n2 : name ≠ "DOCTOR" := fun e => h2 (by rw [e])
          have n3 : name ≠ "PATIENT" := fun e => h3 (by rw [e])
          simp [landingPage, ht, n1, n2, n3]
        | _ => simp [landingPage, ht]

/-- Witness for C7: a visitor without a session who opens `/patient/doctors` is sent to
`/login`; a logged-in ADMIN who opens `/admin/users` stays; a logged-in DOCTOR who opens
`/admin/users` is denied and sent to `/doctor/patient-records` when the timer fires. -/
theorem checkAccess_protected_witness :
    checkAccess "/patient/doctors" anonymousVisit
      = .ok { anonymousVisit with location := "/login" } ∧
    checkAccess "/admin/users" adminVisit = .ok adminVisit ∧
    checkAccess "/admin/users" doctorVisit = .ok (accessDenied doctorVisit) ∧
    fire .redirectBasedOnRole (accessDenied doctorVisit)
      = .ok { accessDenied doctorVisit with location := "/doctor/patient-records" } := by
  refine ⟨(checkAccess_protected "/patient/doctors" anonymousVisit "PATIENT"
    (Or.inr (Or.inr ⟨by decide, by decide, by decide, rfl⟩))).1 rfl,
    (checkAccess_protected "/admin/users" adminVisit "ADMIN"
      (Or.inl ⟨by decide, rfl⟩)).2.1 rfl rfl, ?_⟩
  obtain ⟨hcheck, _, _, _, roleVal, hval, _, _, hdoctor, _, _⟩ :=
    (checkAccess_protected "/admin/users" doctorVisit "ADMIN"
      (Or.inl ⟨by decide, rfl⟩)).2.2 rfl rfl
  have hrole : roleVal = .data (.str "DOCTOR") := by
    have h2 : getField (getCurrentUser doctorVisit.storage) .role
        = .ok (.data (.str "DOCTOR")) := rfl
    rw [h2] at hval
    exact (Except.ok.inj hval).symm
  exact ⟨hcheck, hdoctor hrole⟩

/-! ## C8: `validateFutureDate` -/

/-- C8, as stated, fails: with the clock at 12:00 of a day, the instant 10:00 of the same local
day is accepted as a future date. -/
theorem validateFutureDate_same_day_counterexample :
    localDay 0 36000000 = localDay 0 43200000 ∧
    validateFutureDate 0 43200000 (some 36000000) = true := by
  decide

/-- C8, amended: `validateFutureDate(d)` is true exactly when `d` is after the local midnight
that starts the current day.  It is false for today at midnight and for every instant of an
earlier local day, true for every instant of a later local day, and on the current day it is
true for every instant but midnight itself. -/
theorem validateFutureDate_after_midnight (offset now d : Int) :
    (validateFutureDate offset now (some d) = true ↔ startOfLocalDay offset now < d) ∧
    validateFutureDate offset now (some (startOfLocalDay offset now)) = false ∧
    (localDay offset d < localDay offset now → validateFutureDate offset now (some d) = false) ∧
    (localDay offset now < localDay offset d → validateFutureDate offset now (some d) = true) ∧
    (localDay offset d = localDay offset now →
      (validateFutureDate offset now (some d) = true ↔ d ≠ startOfLocalDay offset now)) := by
  simp only [validateFutureDate, startOfLocalDay, localDay, msPerDay, decide_eq_true_eq,
    decide_eq_false_iff_not, gt_iff_lt]
  refine ⟨trivial, by omega, ?_, ?_, ?_⟩
  · intro h; omega
  · intro h; omega
  · intro h; constructor <;> intro h2 <;> omega

/-- Witness for C8, with the clock at 12:00 of day 1 (UTC): 23:00 of day 0 is not a future date,
00:00 of day 2 is, and 10:00 of day 1 is. -/
theorem validateFutureDate_after_midnight_witness :
    validateFutureDate 0 129600000 (some 82800000) = false ∧
    validateFutureDate 0 129600000 (some 172800000) = true ∧
    (validateFutureDate 0 129600000 (some 122400000) = true ↔
      (122400000 : Int) ≠ startOfLocalDay 0 129600000) :=
  ⟨(validateFutureDate_after_midnight 0 129600000 82800000).2.2.1 (by decide),
   (validateFutureDate_after_midnight 0 129600000 172800000).2.2.2.1 (by decide),
   (validateFutureDate_after_midnight 0 129600000 122400000).2.2.2.2 (by decide)⟩

/-! ## C10: `debounce` -/

theorem clearTimeout_nil {α : Type} (id : Option Nat) :
    clearTimeout id ([] : List (Timer α)) = [] := by
  cases id <;> rfl

theorem clearTimeout_single {α : Type} (tm : Timer α) :
    clearTimeout (some tm.id) [tm] = [] := by
  simp [clearTimeout]

theorem settle_single {α : Type} (s : Debounced α) (tm : Timer α) (hp : s.pending = [tm]) :
    (settle s).delivered = s.delivered ++ [(tm.due, tm.args)] := by
  simp [settle, runTimers, nextDue, hp, fireTimer, clearTimeout_nil]

theorem advance_single_due {α : Type} (s : Debounced α) (tm : Timer α) (now : Nat)
    (hp : s.pending = [tm]) (hdue : tm.due ≤ now) :
    (advance now s).delivered = s.delivered ++ [(tm.due, tm.args)] ∧
    (advance now s).pending = [] := by
  simp [advance, runTimers, nextDue, hp, fireTimer, clearTimeout_nil, hdue]

theorem advance_single_early {α : Type} (s : Debounced α) (tm : Timer α) (now : Nat)
    (hp : s.pending = [tm]) (hdue : now < tm.due) : advance now s = s := by
  have h : ¬ tm.due ≤ now := by omega
  simp [advance, runTimers, nextDue, hp, h]

theorem advance_idle {α : Type} (s : Debounced α) (now : Nat) (hp : s.pending = []) :
    advance now s = s := by
  simp [advance, runTimers, hp]

theorem runCalls_pending {α : Type} (wait : Nat) (calls : List (Nat × α)) :
    ∀ (s : Debounced α) (t0 id : Nat) (a0 : α),
      s.pending = [⟨id, t0 + wait, a0⟩] → s.timeout = some id →
      (∀ c ∈ calls, t0 < c.1) → calls.Pairwise (fun x y => x.1 < y.1) →
      (runCalls wait calls s).delivered
        = s.delivered ++ expectedDeliveries wait ((t0, a0) :: calls) := by
  induction calls with
  | nil =>
    intro s t0 id a0 hp _ _ _
    simp [runCalls, expectedDeliveries, settle_single s _ hp]
  | cons c rest ih =>
    intro s t0 id a0 hp hto hlt hsorted
    obtain ⟨t, a⟩ := c
    have ht : t0 < t := hlt (t, a) (List.mem_cons_self _ _)
    have hrest : ∀ c ∈ rest, t < c.1 := fun c hc => (List.pairwise_cons.mp hsorted).1 c hc
    have hsorted' := (List.pairwise_cons.mp hsorted).2
    simp only [runCalls]
    by_cases hdue : t0 + wait ≤ t
    · obtain ⟨hd, hpend⟩ := advance_single_due s _ t hp hdue
      have hnone : ((t, a) :: rest).any (fun later => decide (later.1 < t0 + wait)) = false := by
        rw [List.any_eq_false]
        intro x hx
        have : t ≤ x.1 := by
          rcases List.mem_cons.mp hx with h | h
          · rw [h]
          · exact Nat.le_of_lt (hrest x h)
        simp only [decide_eq_true_eq]
        omega
      rw [ih (invoke wait t a (advance t s)) t (advance t s).nextId a
        (by simp [invoke, hpend, clearTimeout_nil]) rfl hrest hsorted']
      conv_rhs => rw [expectedDeliveries, hnone]
      simp [invoke, hd]
    · have hearly : t < t0 + wait := by omega
      rw [advance_single_early s _ t hp hearly]
      have hsome : ((t, a) :: rest).any (fun later => decide (later.1 < t0 + wait)) = true := by
        simp [hearly]
      rw [ih (invoke wait t a s) t s.nextId a
        (by
          have := clearTimeout_single (⟨id, t0 + wait, a0⟩ : Timer α)
          simp only at this
          simp [invoke, hp, hto, this]) rfl hrest hsorted']
      conv_rhs => rw [expectedDeliveries, hsome]
      simp [invoke]

theorem runCalls_idle {α : Type} (wait : Nat) (calls : List (Nat × α)) (s : Debounced α)
    (hp : s.pending = []) (hsorted : calls.Pairwise (fun x y => x.1 < y.1)) :
    (runCalls wait calls s).delivered = s.delivered ++ expectedDeliveries wait calls := by
  cases calls with
  | nil => simp [runCalls, settle, runTimers, hp, expectedDeliveries]
  | cons c rest =>
    obtain ⟨t, a⟩ := c
    simp only [runCalls]
    rw [advance_idle s t hp]
    rw [runCalls_pending wait rest (invoke wait t a s) t s.nextId a
      (by simp [invoke, hp, clearTimeout_nil]) rfl
      (fun c hc => (List.pairwise_cons.mp hsorted).1 c hc) (List.pairwise_cons.mp hsorted).2]
    simp [invoke]

/-- C10: for every wait `w` and every finite sequence of invocations at strictly increasing
instants, the debounced function calls `func` exactly for the invocations that are not followed
by another invocation before their instant plus `w`, once each, at that instant plus `w`, with
the arguments of that invocation and in that order; superseded invocations are never
delivered. -/
theorem debounce_delivers_trailing_calls {α : Type} (wait : Nat) (calls : List (Nat × α))
    (hsorted : calls.Pairwise (fun x y => x.1 < y.1)) :
    deliveries wait calls = expectedDeliveries wait calls := by
  have h := runCalls_idle wait calls Debounced.init rfl hsorted
  simpa [deliveries, Debounced.init] using h

/-- Witness for C10: invocations at 0, 50 and 100 ms with a wait of 300 ms give exactly one
delivery, at 400 ms, with the arguments of the invocation at 100 ms. -/
theorem debounce_delivers_trailing_calls_witness :
    deliveries 300 [(0, "first"), (50, "second"), (100, "third")] = [(400, "third")] :=
  (debounce_delivers_trailing_calls 300 [(0, "first"), (50, "second"), (100, "third")]
    (by decide)).trans (by decide)

/-! ## C11: `generateTimeSlots` -/

theorem setMinutes_getMinutes (t interval : Int) :
    setMinutes t (getMinutes t + interval) = t + interval := by
  unfold setMinutes getMinutes
  omega

theorem timeSlotsLoop_run (endTime interval : Int) (n : Nat) :
    ∀ (fuel : Nat) (current : Int) (slots : List String), n < fuel →
      (∀ k : Nat, k < n → current + k * interval < endTime) →
      endTime ≤ current + n * interval →
      timeSlotsLoop endTime interval fuel current slots
        = some (slots ++ (List.range n).map
            fun (k : Nat) => toTimeString5 (current + (k : Int) * interval)) := by
  induction n with
  | zero =>
    intro fuel current slots hfuel _ hend
    obtain ⟨f, rfl⟩ : ∃ f, fuel = f + 1 := ⟨fuel - 1, by omega⟩
    have : ¬ current < endTime := by simpa using hend
    simp [timeSlotsLoop, this]
  | succ n ih =>
    intro fuel current slots hfuel hlt hend
    obtain ⟨f, rfl⟩ : ∃ f, fuel = f + 1 := ⟨fuel - 1, by omega⟩
    have h0 : current < endTime := by simpa using hlt 0 (Nat.succ_pos n)
    simp only [timeSlotsLoop, if_pos h0, setMinutes_getMinutes]
    rw [ih f (current + interval) _ (by omega)
      (fun k hk => by
        have := hlt (k + 1) (by omega)
        push_cast at this
        linarith)
      (by push_cast at hend; linarith)]
    rw [List.range_succ_eq_map, List.map_cons, List.map_map, List.append_assoc]
    congr 2
    simp only [List.cons_append, List.nil_append, Nat.cast_zero, zero_mul, add_zero,
      List.cons.injEq, true_and]
    apply List.map_congr_left
    intro k _
    simp only [Function.comp, Nat.succ_eq_add_one]
    congr 1
    push_cast
    ring

theorem slotCount_bounds (s e i : Int) (hse : s < e) (hi : 1 ≤ i) :
    60 * (e - s) ≤ (slotCount s e i : Int) * i ∧
    ((slotCount s e i : Int) - 1) * i < 60 * (e - s) := by
  have hpos : 0 < i := by omega
  have hq : 0 ≤ (60 * (e - s) + i - 1) / i := Int.ediv_nonneg (by omega) (by omega)
  have hcast : ((slotCount s e i : Nat) : Int) = (60 * (e - s) + i - 1) / i := by
    unfold slotCount
    exact Int.toNat_of_nonneg hq
  rw [hcast]
  have hdm := Int.ediv_add_emod (60 * (e - s) + i - 1) i
  have hr0 := Int.emod_nonneg (60 * (e - s) + i - 1) (by omega : i ≠ 0)
  have hr1 := Int.emod_lt_of_pos (60 * (e - s) + i - 1) hpos
  constructor <;> nlinarith

theorem slotCount_before_end (s e i : Int) (hse : s < e) (hi : 1 ≤ i) (k : Nat)
    (hk : k < slotCount s e i) : 60 * s + k * i < 60 * e := by
  have hb := (slotCount_bounds s e i hse hi).2
  have hk' : (k : Int) ≤ (slotCount s e i : Int) - 1 := by omega
  have := mul_le_mul_of_nonneg_right hk' (by omega : (0 : Int) ≤ i)
  linarith

theorem slotCount_eq_ceil (s e i : Int) (hse : s < e) (hi : 1 ≤ i) :
    (slotCount s e i : Int) = ⌈((60 * (e - s) : Int) : ℚ) / (i : ℚ)⌉ := by
  obtain ⟨h1, h2⟩ := slotCount_bounds s e i hse hi
  have hpos : (0 : ℚ) < (i : ℚ) := by exact_mod_cast (by omega : (0 : Int) < i)
  symm
  rw [Int.ceil_eq_iff]
  constructor
  · rw [lt_div_iff₀ hpos]
    exact_mod_cast h2
  · rw [div_le_iff₀ hpos]
    exact_mod_cast h1

set_option maxRecDepth 100000 in
theorem pad2_length (a : Nat) (h : a < 100) : (pad2 a).data.length = 2 := by
  revert a
  decide

set_option maxRecDepth 100000 in
theorem pad2_value (a : Nat) (h : a < 100) : decimalValue (pad2 a).data = a := by
  revert a
  decide

set_option maxRecDepth 100000 in
theorem pad2_lt_aux : ∀ b < 60, ∀ a < b, (pad2 a).data < (pad2 b).data := by
  decide

theorem pad2_lt (a b : Nat) (hab : a < b) (hb : b < 60) : (pad2 a).data < (pad2 b).data :=
  pad2_lt_aux b hb a hab

theorem toTimeString5_data (t : Int) (h0 : 0 ≤ t) (h1 : t < 1440) :
    (toTimeString5 t).data
      = (pad2 (t / 60).toNat).data ++ ':' :: (pad2 (t % 60).toNat).data := by
  have : t / 60 % 24 = t / 60 := by omega
  simp [toTimeString5, this, String.data_append]

theorem charList_append_lt_of_lt {a b : List Char} (x y : List Char) (h : a < b)
    (hlen : a.length = b.length) : a ++ x < b ++ y := by
  induction h with
  | nil => simp at hlen
  | cons _ ih => exact List.Lex.cons (ih (by simpa using hlen))
  | rel hlt => exact List.Lex.rel hlt

theorem charList_append_lt_append (a : List Char) {x y : List Char} (h : x < y) :
    a ++ x < a ++ y :=
  List.Lex.append_left _ h a

theorem toTimeString5_lt (t u : Int) (h0 : 0 ≤ t) (htu : t < u) (h1 : u < 1440) :
    toTimeString5 t < toTimeString5 u := by
  rw [String.lt_iff_toList_lt]
  show (toTimeString5 t).data < (toTimeString5 u).data
  rw [toTimeString5_data t h0 (by omega), toTimeString5_data u (by omega) h1]
  by_cases hh : t / 60 = u / 60
  · rw [hh]
    apply charList_append_lt_append
    exact List.Lex.cons (pad2_lt _ _ (by omega) (by omega))
  · exact charList_append_lt_of_lt _ _ (pad2_lt _ _ (by omega) (by omega))
      (by rw [pad2_length _ (by omega), pad2_length _ (by omega)])

theorem minuteOfDay_toTimeString5 (t : Int) (h0 : 0 ≤ t) (h1 : t < 1440) :
    minuteOfDay (toTimeString5 t) = t := by
  have hlen := pad2_length (t / 60).toNat (by omega)
  unfold minuteOfDay
  rw [toTimeString5_data t h0 h1, List.take_left' hlen,
    show (3 : Nat) = (pad2 (t / 60).toNat).data.length + 1 by rw [hlen]]
  rw [List.drop_append, List.drop_one, List.tail_cons, pad2_value _ (by omega),
    pad2_value _ (by omega)]
  omega

theorem slotTimes_bounds (s e i : Int) (hs : 0 ≤ s) (hse : s < e) (he : e ≤ 24) (hi : 1 ≤ i)
    (k : Nat) (hk : k < slotCount s e i) :
    0 ≤ 60 * s + (k : Int) * i ∧ 60 * s ≤ 60 * s + (k : Int) * i ∧
    60 * s + (k : Int) * i < 60 * e ∧ 60 * s + (k : Int) * i < 1440 := by
  have h1 := slotCount_before_end s e i hse hi k hk
  have h2 : 0 ≤ (k : Int) * i := mul_nonneg (by omega) (by omega)
  refine ⟨by omega, by omega, h1, by omega⟩

theorem generateTimeSlots_eq (s e i : Int) (hse : s < e) (hi : 1 ≤ i) (fuel : Nat)
    (hfuel : slotCount s e i < fuel) :
    generateTimeSlots fuel s e i = some ((slotTimes s e i).map toTimeString5) := by
  unfold generateTimeSlots setHours
  rw [timeSlotsLoop_run (60 * e) i (slotCount s e i) fuel (60 * s) [] hfuel
    (fun k hk => slotCount_before_end s e i hse hi k hk)
    (by have := (slotCount_bounds s e i hse hi).1; linarith)]
  simp [slotTimes, List.map_map, Function.comp]

/-- C11: with times in integer minutes of the day, for all integers
`0 ≤ startHour < endHour ≤ 24` and every `intervalMinutes ≥ 1` the loop of `generateTimeSlots`
terminates (any fuel above the slot count suffices) and returns the `HH:MM` strings of the times
`startHour:00 + k * intervalMinutes` for `k` below the ceiling of
`60 * (endHour - startHour) / intervalMinutes`: the strings are strictly increasing, each
denotes its time, and every time is at or after `startHour:00` and strictly before
`endHour:00`.  When `startHour ≥ endHour` the result is the empty sequence. -/
theorem generateTimeSlots_slots (startHour endHour intervalMinutes : Int) :
    (0 ≤ startHour → startHour < endHour → endHour ≤ 24 → 1 ≤ intervalMinutes →
      ((slotCount startHour endHour intervalMinutes : Int)
        = ⌈((60 * (endHour - startHour) : Int) : ℚ) / (intervalMinutes : ℚ)⌉) ∧
      ∀ fuel : Nat, slotCount startHour endHour intervalMinutes < fuel →
        ∃ slots : List String,
          generateTimeSlots fuel startHour endHour intervalMinutes = some slots ∧
          slots.length = slotCount startHour endHour intervalMinutes ∧
          slots.Pairwise (fun a b => a < b) ∧
          (∀ k : Nat, k < slotCount startHour endHour intervalMinutes →
            slots.get? k = some (toTimeString5 (60 * startHour + (k : Int) * intervalMinutes)) ∧
            (slots.get? k).map minuteOfDay
              = some (60 * startHour + (k : Int) * intervalMinutes)) ∧
          (∀ slot ∈ slots, 60 * startHour ≤ minuteOfDay slot ∧
            minuteOfDay slot < 60 * endHour)) ∧
    (endHour ≤ startHour → ∀ fuel : Nat, 0 < fuel →
      generateTimeSlots fuel startHour endHour intervalMinutes = some []) := by
  constructor
  · intro hs hse he hi
    refine ⟨slotCount_eq_ceil _ _ _ hse hi, fun fuel hfuel => ?_⟩
    refine ⟨_, generateTimeSlots_eq _ _ _ hse hi fuel hfuel, by simp [slotTimes], ?_, ?_, ?_⟩
    · simp only [slotTimes, List.map_map]
      rw [List.pairwise_map]
      refine (List.pairwise_lt_range _).imp_of_mem ?_
      intro a b ha hb hab
      have hb' := slotTimes_bounds _ _ _ hs hse he hi b (List.mem_range.mp hb)
      have ha' := slotTimes_bounds _ _ _ hs hse he hi a (List.mem_range.mp ha)
      have hlt : (a : Int) * intervalMinutes < (b : Int) * intervalMinutes :=
        mul_lt_mul_of_pos_right (by exact_mod_cast hab) (by omega)
      exact toTimeString5_lt _ _ ha'.1 (by simp only [Function.comp]; linarith) hb'.2.2.2
    · intro k hk
      have hb := slotTimes_bounds _ _ _ hs hse he hi k hk
      have hget : ((slotTimes startHour endHour intervalMinutes).map toTimeString5).get? k
          = some (toTimeString5 (60 * startHour + (k : Int) * intervalMinutes)) := by
        simp [slotTimes, List.getElem?_range hk, hk]
      rw [hget]
      exact ⟨rfl, by simp [minuteOfDay_toTimeString5 _ hb.1 hb.2.2.2]⟩
    · intro slot hslot
      simp only [slotTimes, List.map_map, List.mem_map, List.mem_range] at hslot
      obtain ⟨k, hk, rfl⟩ := hslot
      have hb := slotTimes_bounds _ _ _ hs hse he hi k hk
      simp only [Function.comp]
      rw [minuteOfDay_toTimeString5 _ hb.1 hb.2.2.2]
      exact ⟨hb.2.1, hb.2.2.1⟩
  · intro hle fuel hfuel
    obtain ⟨f, rfl⟩ : ∃ f, fuel = f + 1 := ⟨fuel - 1, by omega⟩
    have : ¬ 60 * startHour < 60 * endHour := by omega
    simp [generateTimeSlots, setHours, timeSlotsLoop, this]

/-- Witness for C11: the defaults 9, 17 and 30 give the 16 slots from 09:00 to 16:30, and a start
hour after the end hour gives no slot. -/
theorem generateTimeSlots_slots_witness :
    (∃ slots : List String,
      generateTimeSlots 17 9 17 30 = some slots ∧
      slots.length = slotCount 9 17 30 ∧
      slots.Pairwise (fun a b => a < b) ∧
      (∀ k : Nat, k < slotCount 9 17 30 →
        slots.get? k = some (toTimeString5 (60 * 9 + (k : Int) * 30)) ∧
        (slots.get? k).map minuteOfDay = some (60 * 9 + (k : Int) * 30)) ∧
      (∀ slot ∈ slots, 60 * 9 ≤ minuteOfDay slot ∧ minuteOfDay slot < 60 * 17)) ∧
    generateTimeSlots 17 9 17 30 = some ["09:00", "09:30", "10:00", "10:30", "11:00", "11:30",
      "12:00", "12:30", "13:00", "13:30", "14:00", "14:30", "15:00", "15:30", "16:00",
      "16:30"] ∧
    slotCount 9 17 30 = 16 ∧
    generateTimeSlots 1 17 9 30 = some [] :=
  ⟨((generateTimeSlots_slots 9 17 30).1 (by decide) (by decide) (by decide) (by decide)).2 17
      (by decide),
   by decide, by decide,
   (generateTimeSlots_slots 17 9 30).2 (by decide) 1 (by decide)⟩

end SmartClinic
